import Mathlib

/-!
# Verification of the `ekumen::math` 3D linear-algebra kernel

Shallow embedding of the `Vector3`, `Matrix3` and `Isometry` classes
(files `vector3.cpp`, `matrix3.cpp`, `isometry.cpp` and their headers).
Scalars are modelled as `ℚ` (exact field arithmetic standing for `double`);
machine epsilon is the constant `2⁻⁵²` used by `Vector3::operator==`.
Throwing operations (`operator[]` out of range, `Matrix3::inverse` on a
near-singular matrix) are modelled as `Option`-valued functions where
`none` stands for the thrown exception.

Calls to `sqrt`, `cos` and `sin` (which leave ℚ) appear only in
`Isometry::rotateAround`; there the embedding takes the values of
`axis.norm()`, `cos(radians)` and `sin(radians)` as explicit parameters
and keeps the rest of the source formula verbatim.
-/

namespace EkumenMath

/-- Machine epsilon for IEEE-754 double, `std::numeric_limits<double>::epsilon()`. -/
def eps : ℚ := 1 / 2 ^ 52

/-- The class `Vector3`: three real components (fields `x_`, `y_`, `z_`). -/
structure Vector3 where
  x : ℚ
  y : ℚ
  z : ℚ
deriving DecidableEq, Repr

namespace Vector3

/-- Constant `Vector3::kZero`. -/
def kZero : Vector3 := ⟨0, 0, 0⟩

/-- Constant `Vector3::kUnitX`. -/
def kUnitX : Vector3 := ⟨1, 0, 0⟩

/-- Constant `Vector3::kUnitY`. -/
def kUnitY : Vector3 := ⟨0, 1, 0⟩

/-- Constant `Vector3::kUnitZ`. -/
def kUnitZ : Vector3 := ⟨0, 0, 1⟩

/-- Component-wise sum, `Vector3::operator+` (delegates to `operator+=`). -/
def add (a b : Vector3) : Vector3 := ⟨a.x + b.x, a.y + b.y, a.z + b.z⟩

/-- Component-wise product, `Vector3::operator*(const Vector3&)`
(delegates to `operator*=`, which multiplies component by component). -/
def hadamard (a b : Vector3) : Vector3 := ⟨a.x * b.x, a.y * b.y, a.z * b.z⟩

/-- Scalar product, `Vector3::operator*(double)`. -/
def smul (s : ℚ) (a : Vector3) : Vector3 := ⟨a.x * s, a.y * s, a.z * s⟩

/-- Dot product, `Vector3::dot`. -/
def dot (a b : Vector3) : ℚ := a.x * b.x + a.y * b.y + a.z * b.z

/-- Equality test `Vector3::operator==`: each component differs by at most
machine epsilon (`std::fabs(x_ - vector.x()) <= epsilon && ...`). -/
def veq (a b : Vector3) : Prop :=
  |a.x - b.x| ≤ eps ∧ |a.y - b.y| ≤ eps ∧ |a.z - b.z| ≤ eps

instance (a b : Vector3) : Decidable (veq a b) := by
  unfold veq; exact inferInstance

/-- Read accessor `Vector3::operator[](int) const`: a `switch` on the index
returning `x_`, `y_` or `z_`, with `std::out_of_range` (here `none`) on any
other index. The C++ index type is `int`, modelled as `ℤ`. -/
def get? (v : Vector3) (index : ℤ) : Option ℚ :=
  if index = 0 then some v.x
  else if index = 1 then some v.y
  else if index = 2 then some v.z
  else none

/-- Write accessor `Vector3::operator[](int)`: returns a mutable reference
into the vector, modelled as the effect of assigning `val` through that
reference; the same `switch` throws (here `none`) out of `[0,2]`. -/
def setAt? (v : Vector3) (index : ℤ) (val : ℚ) : Option Vector3 :=
  if index = 0 then some ⟨val, v.y, v.z⟩
  else if index = 1 then some ⟨v.x, val, v.z⟩
  else if index = 2 then some ⟨v.x, v.y, val⟩
  else none

end Vector3

/-- The class `Matrix3`: three row vectors (fields `row_0_`, `row_1_`, `row_2_`). -/
structure Matrix3 where
  row0 : Vector3
  row1 : Vector3
  row2 : Vector3
deriving DecidableEq, Repr

namespace Matrix3

/-- Constant `Matrix3::kIdentity`. -/
def kIdentity : Matrix3 := ⟨⟨1, 0, 0⟩, ⟨0, 1, 0⟩, ⟨0, 0, 1⟩⟩

/-- Constant `Matrix3::kOnes`. -/
def kOnes : Matrix3 := ⟨⟨1, 1, 1⟩, ⟨1, 1, 1⟩, ⟨1, 1, 1⟩⟩

/-- Constant `Matrix3::kZero`. -/
def kZero : Matrix3 := ⟨⟨0, 0, 0⟩, ⟨0, 0, 0⟩, ⟨0, 0, 0⟩⟩

/-- Equality test `Matrix3::operator==`: row-wise `Vector3::operator==`. -/
def meq (a b : Matrix3) : Prop :=
  Vector3.veq a.row0 b.row0 ∧ Vector3.veq a.row1 b.row1 ∧ Vector3.veq a.row2 b.row2

instance (a b : Matrix3) : Decidable (meq a b) := by
  unfold meq; exact inferInstance

/-- Read accessor `Matrix3::operator[](int) const`: a `switch` returning a
copy of the requested row, `std::out_of_range` (here `none`) otherwise. -/
def getRow? (m : Matrix3) (index : ℤ) : Option Vector3 :=
  if index = 0 then some m.row0
  else if index = 1 then some m.row1
  else if index = 2 then some m.row2
  else none

/-- Write accessor `Matrix3::operator[](int)`: returns a mutable reference to
the requested row, modelled as the effect of assigning `r` through it; the
same `switch` throws (here `none`) out of `[0,2]`. -/
def setRow? (m : Matrix3) (index : ℤ) (r : Vector3) : Option Matrix3 :=
  if index = 0 then some ⟨r, m.row1, m.row2⟩
  else if index = 1 then some ⟨m.row0, r, m.row2⟩
  else if index = 2 then some ⟨m.row0, m.row1, r⟩
  else none

/-- Matrix-matrix `Matrix3::operator*` (delegates to `operator*=`, which
multiplies row by row with `Vector3::operator*=`): the ELEMENT-WISE product,
not true matrix multiplication. -/
def hadamard (a b : Matrix3) : Matrix3 :=
  ⟨Vector3.hadamard a.row0 b.row0,
   Vector3.hadamard a.row1 b.row1,
   Vector3.hadamard a.row2 b.row2⟩

/-- Matrix-vector `Matrix3::operator*(const Vector3&)`:
`{row_0_.dot(vector), row_1_.dot(vector), row_2_.dot(vector)}`. -/
def mulVec (m : Matrix3) (v : Vector3) : Vector3 :=
  ⟨Vector3.dot m.row0 v, Vector3.dot m.row1 v, Vector3.dot m.row2 v⟩

/-- Scalar multiplication `Matrix3::operator*(double)` (row-wise `Vector3` scaling). -/
def smul (s : ℚ) (m : Matrix3) : Matrix3 :=
  ⟨Vector3.smul s m.row0, Vector3.smul s m.row1, Vector3.smul s m.row2⟩

/-- Determinant `Matrix3::det`: cofactor expansion along the first row. -/
def det (m : Matrix3) : ℚ :=
  m.row0.x * (m.row1.y * m.row2.z - m.row1.z * m.row2.y) -
  m.row0.y * (m.row1.x * m.row2.z - m.row1.z * m.row2.x) +
  m.row0.z * (m.row1.x * m.row2.y - m.row1.y * m.row2.x)

/-- Column accessor `Matrix3::col` (by value), here at an in-range index
given as `Fin 3`; out-of-range behaviour is carried by `getRow?`/`setRow?`. -/
def col (m : Matrix3) (index : Fin 3) : Vector3 :=
  match index with
  | 0 => ⟨m.row0.x, m.row1.x, m.row2.x⟩
  | 1 => ⟨m.row0.y, m.row1.y, m.row2.y⟩
  | 2 => ⟨m.row0.z, m.row1.z, m.row2.z⟩

/-- Inverse `Matrix3::inverse`: throws (here `none`) when `|det| < 1e-6`,
otherwise `1/det` times the cofactor matrix exactly as transcribed in the
source with `a..k` naming the entries — including the source's entry
`-(a * h - b * h)` in row 2, column 1 (the canonical adjugate has
`-(a * h - b * g)` there). -/
def inverse (m : Matrix3) : Option Matrix3 :=
  let dt := m.det
  if |dt| < 1 / 1000000 then none
  else
    let a := m.row0.x
    let b := m.row0.y
    let c := m.row0.z
    let d := m.row1.x
    let e := m.row1.y
    let f := m.row1.z
    let g := m.row2.x
    let h := m.row2.y
    let k := m.row2.z
    some (smul (1 / dt)
      ⟨⟨(e * k - f * h), -(b * k - c * h), (b * f - c * e)⟩,
       ⟨-(d * k - f * g), (a * k - c * g), -(a * f - c * d)⟩,
       ⟨(d * h - e * g), -(a * h - b * h), (a * e - b * d)⟩⟩)

/-- True matrix multiplication `Matrix3::product(const Matrix3&)`:
row-by-column dot products. -/
def product (m n : Matrix3) : Matrix3 :=
  ⟨⟨Vector3.dot m.row0 (n.col 0), Vector3.dot m.row0 (n.col 1), Vector3.dot m.row0 (n.col 2)⟩,
   ⟨Vector3.dot m.row1 (n.col 0), Vector3.dot m.row1 (n.col 1), Vector3.dot m.row1 (n.col 2)⟩,
   ⟨Vector3.dot m.row2 (n.col 0), Vector3.dot m.row2 (n.col 1), Vector3.dot m.row2 (n.col 2)⟩⟩

/-- True matrix-vector multiplication `Matrix3::product(const Vector3&)`:
`row(i).dot(vector)` for each row. -/
def productVec (m : Matrix3) (v : Vector3) : Vector3 :=
  ⟨Vector3.dot m.row0 v, Vector3.dot m.row1 v, Vector3.dot m.row2 v⟩

end Matrix3

/-- The class `Isometry`: a rotation matrix `rotation_` and a translation
vector `translation_`. -/
structure Isometry where
  rotation : Matrix3
  translation : Vector3
deriving DecidableEq, Repr

namespace Isometry

/-- Default constructor `Isometry::Isometry()`:
`rotation_{Matrix3::kZero}, translation_{Vector3()}`. -/
def default : Isometry := ⟨Matrix3.kZero, Vector3.kZero⟩

/-- Factory `Isometry::fromTranslation`: identity rotation, given translation. -/
def fromTranslation (v : Vector3) : Isometry := ⟨Matrix3.kIdentity, v⟩

/-- Factory `Isometry::rotateAround`. The source computes
`ux = vector[0] / vector.norm()` (likewise `uy`, `uz`), `cosAngle`,
`sinAngle`, and fills a 3×3 Rodrigues matrix; translation is `Vector3()`.
Here `nrm` stands for the value of `vector.norm()` and `c`, `s` for
`cos(radians)`, `sin(radians)`, since square roots and trigonometric values
are not rational; the matrix entries follow the source verbatim. -/
def rotateAround (vector : Vector3) (nrm c s : ℚ) : Isometry :=
  let ux := vector.x / nrm
  let uy := vector.y / nrm
  let uz := vector.z / nrm
  ⟨⟨⟨c + ux ^ 2 * (1 - c), ux * uy * (1 - c) - uz * s, ux * uz * (1 - c) + uy * s⟩,
    ⟨uy * ux * (1 - c) + uz * s, c + uy ^ 2 * (1 - c), uy * uz * (1 - c) - ux * s⟩,
    ⟨uz * ux * (1 - c) - uy * s, uz * uy * (1 - c) + ux * s, c + uz ^ 2 * (1 - c)⟩⟩,
   Vector3.kZero⟩

/-- Point transformation `Isometry::transform`:
`rotation_ * vector + translation_` (true matrix-vector product plus
translation, via `Matrix3::operator*(const Vector3&)`). -/
def transform (i : Isometry) (vector : Vector3) : Vector3 :=
  Vector3.add (i.rotation.mulVec vector) i.translation

/-- Composition `Isometry::operator*(const Isometry&)`:
`Isometry((rotation_ * isometry.translation()) + translation_,
rotation_ * isometry.rotation())`. The translation uses the true
matrix-vector `operator*`; the rotation uses the matrix-matrix `operator*`,
which is the element-wise product. -/
def mulIso (a b : Isometry) : Isometry :=
  ⟨a.rotation.hadamard b.rotation,
   Vector3.add (a.rotation.mulVec b.translation) a.translation⟩

/-- Composition `Isometry::compose`: `(*this) * isometry`. -/
def compose (a b : Isometry) : Isometry := a.mulIso b

/-- Inverse `Isometry::inverse`:
`Isometry(-1 * inv_rot.product(translation_), inv_rot)` with
`inv_rot = rotation_.inverse()`; `none` when the rotation's inverse throws. -/
def inverse? (i : Isometry) : Option Isometry :=
  (i.rotation.inverse).map fun inv_rot =>
    ⟨inv_rot, Vector3.smul (-1) (inv_rot.productVec i.translation)⟩

/-- Equality `Isometry::operator==`: rotation and translation equality
(each epsilon-tolerant). -/
def ieq (a b : Isometry) : Prop :=
  Matrix3.meq a.rotation b.rotation ∧ Vector3.veq a.translation b.translation

instance (a b : Isometry) : Decidable (ieq a b) := by
  unfold ieq; exact inferInstance

end Isometry

end EkumenMath

namespace EkumenMath

/-! ## Concrete instances used as failing inputs -/

/-- Isometry with the all-ones matrix as rotation and zero translation. -/
def isoOnes : Isometry := ⟨Matrix3.kOnes, Vector3.kZero⟩

/-- Isometry with the zero matrix as rotation and translation `(1,0,0)`. -/
def isoTransX : Isometry := ⟨Matrix3.kZero, ⟨1, 0, 0⟩⟩

/-- Matrix `[[1,1,0],[0,1,0],[1,0,1]]`, determinant 1. -/
def mC2 : Matrix3 := ⟨⟨1, 1, 0⟩, ⟨0, 1, 0⟩, ⟨1, 0, 1⟩⟩

/-- Modelled from the spec: the canonical closed-form 3×3 inverse
(`adjugate / det`, checkerboard cofactor signs), which the spec names as
ground truth for `Matrix3::inverse`; it differs from the source's
transcription in row 2, column 1 (`-(a*h - b*g)` here, `-(a*h - b*h)`
in the source). Used only to compare against `Matrix3.inverse`. -/
def inverseSpec (m : Matrix3) : Option Matrix3 :=
  let dt := m.det
  if |dt| < 1 / 1000000 then none
  else
    let a := m.row0.x
    let b := m.row0.y
    let c := m.row0.z
    let d := m.row1.x
    let e := m.row1.y
    let f := m.row1.z
    let g := m.row2.x
    let h := m.row2.y
    let k := m.row2.z
    some (Matrix3.smul (1 / dt)
      ⟨⟨(e * k - f * h), -(b * k - c * h), (b * f - c * e)⟩,
       ⟨-(d * k - f * g), (a * k - c * g), -(a * f - c * d)⟩,
       ⟨(d * h - e * g), -(a * h - b * g), (a * e - b * d)⟩⟩)

/-- The isometry `rotateAround((0,0,1), pi/2)` at the exact values
`norm = 1`, `cos(pi/2) = 0`, `sin(pi/2) = 1`. -/
def isoRotZ90 : Isometry := Isometry.rotateAround ⟨0, 0, 1⟩ 1 0 1

/-! ## Claims -/

/-- C1: the composition `A.compose(B)` (= `A * B`) does give
`translation = R1·t2 + t1` with the true matrix-vector product, but its
rotation is the ELEMENT-WISE product of `R1` and `R2`, not the true matrix
product: at `A = B = Isometry(rotation kOnes, translation 0)` the composed
rotation is the all-ones matrix while the true product `R1·R2` is the
all-threes matrix, and the two are not equal even under the tolerant
matrix equality. -/
theorem compose_rotation_not_true_product :
    (isoOnes.compose isoOnes).rotation = Matrix3.kOnes ∧
    (isoOnes.mulIso isoOnes).rotation = Matrix3.kOnes ∧
    Matrix3.product isoOnes.rotation isoOnes.rotation =
      ⟨⟨3, 3, 3⟩, ⟨3, 3, 3⟩, ⟨3, 3, 3⟩⟩ ∧
    ¬ Matrix3.meq (isoOnes.compose isoOnes).rotation
        (Matrix3.product isoOnes.rotation isoOnes.rotation) ∧
    (isoOnes.compose isoOnes).translation =
      Vector3.add (isoOnes.rotation.mulVec isoOnes.translation) isoOnes.translation := by
  norm_num [isoOnes, Isometry.compose, Isometry.mulIso, Matrix3.hadamard,
    Vector3.hadamard, Matrix3.kOnes, Matrix3.product, Matrix3.col, Vector3.dot,
    Matrix3.meq, Vector3.veq, Matrix3.mulVec, Vector3.add, Vector3.kZero, eps]

/-- C2: at `M = [[1,1,0],[0,1,0],[1,0,1]]` (determinant 1, far above the
`1e-6` guard) the source's `inverse()` returns `[[1,-1,0],[0,1,0],[-1,0,1]]`,
and `M.product(M.inverse())` is `[[1,0,0],[0,1,0],[0,-1,1]]`, not the
identity even under the tolerant matrix equality; the canonical
`adjugate / det` inverse `[[1,-1,0],[0,1,0],[-1,1,1]]` does satisfy the
round trip. The code's cofactor in row 2, column 1 is `-(a*h - b*h)` where
the canonical formula has `-(a*h - b*g)`. -/
theorem inverse_roundtrip_fails :
    mC2.det = 1 ∧
    mC2.inverse = some ⟨⟨1, -1, 0⟩, ⟨0, 1, 0⟩, ⟨-1, 0, 1⟩⟩ ∧
    mC2.product ⟨⟨1, -1, 0⟩, ⟨0, 1, 0⟩, ⟨-1, 0, 1⟩⟩ =
      ⟨⟨1, 0, 0⟩, ⟨0, 1, 0⟩, ⟨0, -1, 1⟩⟩ ∧
    ¬ Matrix3.meq (mC2.product ⟨⟨1, -1, 0⟩, ⟨0, 1, 0⟩, ⟨-1, 0, 1⟩⟩) Matrix3.kIdentity ∧
    inverseSpec mC2 = some ⟨⟨1, -1, 0⟩, ⟨0, 1, 0⟩, ⟨-1, 1, 1⟩⟩ ∧
    Matrix3.meq (mC2.product ⟨⟨1, -1, 0⟩, ⟨0, 1, 0⟩, ⟨-1, 1, 1⟩⟩) Matrix3.kIdentity ∧
    mC2.inverse ≠ inverseSpec mC2 := by
  norm_num [mC2, Matrix3.det, Matrix3.inverse, inverseSpec, Matrix3.smul,
    Vector3.smul, Matrix3.product, Matrix3.col, Vector3.dot, Matrix3.meq,
    Vector3.veq, Matrix3.kIdentity, eps]

/-- C3: for `I = rotateAround((0,0,1), pi/2)` (exact values `cos = 0`,
`sin = 1`) and `p = (1,0,0)`, the inverse exists but
`I.inverse().compose(I).transform(p)` evaluates to `(0,-1,0)`, which is not
tolerantly equal to `p`: `compose` multiplies the rotations element-wise,
so the composed rotation is not the identity. -/
theorem inverse_compose_roundtrip_fails :
    isoRotZ90.inverse?.map (fun j => (j.compose isoRotZ90).transform ⟨1, 0, 0⟩) =
      some ⟨0, -1, 0⟩ ∧
    ¬ Vector3.veq ⟨0, -1, 0⟩ ⟨1, 0, 0⟩ := by
  norm_num [isoRotZ90, Isometry.rotateAround, Isometry.inverse?, Matrix3.inverse,
    Matrix3.det, Matrix3.smul, Vector3.smul, Isometry.compose, Isometry.mulIso,
    Matrix3.hadamard, Vector3.hadamard, Isometry.transform, Matrix3.mulVec,
    Matrix3.productVec, Vector3.dot, Vector3.add, Vector3.kZero, Vector3.veq, eps]

/-- C4: with `A = B = Isometry(rotation kOnes, translation 0)` and
`C = Isometry(rotation kZero, translation (1,0,0))`, `(A*B)*C` has
translation `(1,1,1)` while `A*(B*C)` has translation `(3,3,3)`, so the two
are not equal even under the tolerant isometry equality: composition as
implemented is not associative. -/
theorem compose_not_associative :
    ((isoOnes.mulIso isoOnes).mulIso isoTransX).translation = ⟨1, 1, 1⟩ ∧
    (isoOnes.mulIso (isoOnes.mulIso isoTransX)).translation = ⟨3, 3, 3⟩ ∧
    ¬ Isometry.ieq ((isoOnes.mulIso isoOnes).mulIso isoTransX)
        (isoOnes.mulIso (isoOnes.mulIso isoTransX)) := by
  norm_num [isoOnes, isoTransX, Isometry.mulIso, Matrix3.hadamard, Vector3.hadamard,
    Matrix3.kOnes, Matrix3.kZero, Matrix3.mulVec, Vector3.dot, Vector3.add,
    Vector3.kZero, Isometry.ieq, Matrix3.meq, Vector3.veq, eps]

/-- C5: `Matrix3::inverse` fails (returns `none`, modelling the thrown
runtime error) exactly when `|det| < 1e-6`; in particular the zero matrix
fails, and on every other matrix it returns a value (no other failure
mode). -/
theorem inverse_fails_iff_near_singular :
    (∀ m : Matrix3, m.inverse = none ↔ |m.det| < 1 / 1000000) ∧
    Matrix3.kZero.inverse = none := by
  have base : ∀ m : Matrix3, m.inverse = none ↔ |m.det| < 1 / 1000000 := by
    intro m
    by_cases h : |m.det| < 1 / 1000000
    · simp [Matrix3.inverse, h]
    · simp [Matrix3.inverse, h]
  refine ⟨base, ?_⟩
  rw [base]
  norm_num [Matrix3.kZero, Matrix3.det]

/-- C6: the indexed accessors of `Vector3` and `Matrix3`, on both the read
and the write overload, succeed exactly for indices in `[0,2]` (any other
integer index, negative ones included, yields the out-of-range error,
modelled as `none`), and in range the read overload returns the
corresponding component or row of the unmodified value. -/
theorem indexed_access_in_range :
    (∀ (v : Vector3) (i : ℤ),
       ((v.get? i).isSome ↔ 0 ≤ i ∧ i ≤ 2) ∧
       ∀ q : ℚ, ((v.setAt? i q).isSome ↔ 0 ≤ i ∧ i ≤ 2)) ∧
    (∀ v : Vector3,
       v.get? 0 = some v.x ∧ v.get? 1 = some v.y ∧ v.get? 2 = some v.z) ∧
    (∀ (m : Matrix3) (i : ℤ),
       ((m.getRow? i).isSome ↔ 0 ≤ i ∧ i ≤ 2) ∧
       ∀ r : Vector3, ((m.setRow? i r).isSome ↔ 0 ≤ i ∧ i ≤ 2)) ∧
    (∀ m : Matrix3,
       m.getRow? 0 = some m.row0 ∧ m.getRow? 1 = some m.row1 ∧
       m.getRow? 2 = some m.row2) := by
  refine ⟨fun v i => ⟨?_, fun q => ?_⟩, fun v => ⟨rfl, rfl, rfl⟩,
    fun m i => ⟨?_, fun r => ?_⟩, fun m => ⟨rfl, rfl, rfl⟩⟩ <;>
  · simp only [Vector3.get?, Vector3.setAt?, Matrix3.getRow?, Matrix3.setRow?]
    split_ifs with h1 h2 h3 <;> simp <;> omega

/-- C7: `Vector3::operator==` is component-wise comparison against the
fixed absolute tolerance `eps` (machine epsilon): every vector equals
itself; two vectors whose components each differ by at most `eps` are
equal; and a difference of `2*eps` in any single component makes them
unequal. -/
theorem veq_tolerance :
    (∀ a : Vector3, Vector3.veq a a) ∧
    (∀ a b : Vector3, |a.x - b.x| ≤ eps → |a.y - b.y| ≤ eps →
       |a.z - b.z| ≤ eps → Vector3.veq a b) ∧
    (∀ a b : Vector3,
       (|a.x - b.x| = 2 * eps ∨ |a.y - b.y| = 2 * eps ∨ |a.z - b.z| = 2 * eps) →
       ¬ Vector3.veq a b) := by
  have heps : (0 : ℚ) < eps := by norm_num [eps]
  refine ⟨fun a => ?_, fun a b hx hy hz => ⟨hx, hy, hz⟩, fun a b h hv => ?_⟩
  · refine ⟨?_, ?_, ?_⟩ <;> · rw [sub_self, abs_zero]; linarith
  · obtain ⟨h1, h2, h3⟩ := hv
    rcases h with h | h | h
    · rw [h] at h1; linarith
    · rw [h] at h2; linarith
    · rw [h] at h3; linarith

/-- C7 witness: the three parts of `veq_tolerance` instantiated at
concrete vectors, every hypothesis discharged by evaluation. -/
theorem veq_tolerance_check :
    Vector3.veq ⟨0, 0, 0⟩ ⟨0, 0, 0⟩ ∧
    Vector3.veq ⟨0, 0, 0⟩ ⟨eps, eps, eps⟩ ∧
    ¬ Vector3.veq ⟨0, 0, 0⟩ ⟨2 * eps, 0, 0⟩ :=
  ⟨veq_tolerance.1 ⟨0, 0, 0⟩,
   veq_tolerance.2.1 ⟨0, 0, 0⟩ ⟨eps, eps, eps⟩ (by norm_num [eps, abs_le])
     (by norm_num [eps, abs_le]) (by norm_num [eps, abs_le]),
   veq_tolerance.2.2 ⟨0, 0, 0⟩ ⟨2 * eps, 0, 0⟩
     (Or.inl (by rw [zero_sub, abs_neg, abs_of_nonneg (by norm_num [eps])]))⟩

/-- C8: `rotateAround((0,0,1), pi/2).transform((1,0,0))` is within `1e-9`
of `(0,1,0)` in each component. The axis `(0,0,1)` has exact norm 1; `c`
and `s` stand for the computed values of `cos(pi/2)` and `sin(pi/2)`,
which (whether taken exactly or as IEEE doubles) lie within `1e-12` of
`0` and `1` respectively. -/
theorem rotateAround_z_quarter_turn (c s : ℚ)
    (hc : |c| ≤ 1 / 10 ^ 12) (hs : |s - 1| ≤ 1 / 10 ^ 12) :
    |((Isometry.rotateAround ⟨0, 0, 1⟩ 1 c s).transform ⟨1, 0, 0⟩).x - 0| ≤ 1 / 10 ^ 9 ∧
    |((Isometry.rotateAround ⟨0, 0, 1⟩ 1 c s).transform ⟨1, 0, 0⟩).y - 1| ≤ 1 / 10 ^ 9 ∧
    |((Isometry.rotateAround ⟨0, 0, 1⟩ 1 c s).transform ⟨1, 0, 0⟩).z - 0| ≤ 1 / 10 ^ 9 := by
  have hval : (Isometry.rotateAround ⟨0, 0, 1⟩ 1 c s).transform ⟨1, 0, 0⟩ =
      ⟨c, s, 0⟩ := by
    simp [Isometry.rotateAround, Isometry.transform, Matrix3.mulVec,
      Vector3.dot, Vector3.add, Vector3.kZero]
  rw [hval]
  refine ⟨?_, ?_, ?_⟩
  · simpa using hc.trans (by norm_num)
  · simpa using hs.trans (by norm_num)
  · norm_num

/-- C8 witness: `rotateAround_z_quarter_turn` at the exact values
`c = 0`, `s = 1`. -/
theorem rotateAround_z_quarter_turn_check :
    |((Isometry.rotateAround ⟨0, 0, 1⟩ 1 0 1).transform ⟨1, 0, 0⟩).x - 0| ≤ 1 / 10 ^ 9 ∧
    |((Isometry.rotateAround ⟨0, 0, 1⟩ 1 0 1).transform ⟨1, 0, 0⟩).y - 1| ≤ 1 / 10 ^ 9 ∧
    |((Isometry.rotateAround ⟨0, 0, 1⟩ 1 0 1).transform ⟨1, 0, 0⟩).z - 0| ≤ 1 / 10 ^ 9 :=
  rotateAround_z_quarter_turn 0 1 (by norm_num) (by norm_num)

/-- C9: the default-constructed `Isometry` has the zero matrix (not the
identity) as rotation and the zero vector as translation; its `inverse()`
therefore hits the singular-matrix error (`none`), and its `transform`
maps every point to the zero vector. -/
theorem default_isometry_degenerate :
    Isometry.default.rotation = Matrix3.kZero ∧
    Isometry.default.rotation ≠ Matrix3.kIdentity ∧
    Isometry.default.translation = Vector3.kZero ∧
    Isometry.default.inverse? = none ∧
    ∀ p : Vector3, Isometry.default.transform p = Vector3.kZero := by
  refine ⟨rfl, by norm_num [Isometry.default, Matrix3.kZero, Matrix3.kIdentity],
    rfl, ?_, fun p => ?_⟩
  · norm_num [Isometry.default, Isometry.inverse?, Matrix3.inverse, Matrix3.det,
      Matrix3.kZero]
  · simp [Isometry.default, Isometry.transform, Matrix3.mulVec, Matrix3.kZero,
      Vector3.dot, Vector3.add, Vector3.kZero]

/-- C10: `Vector3::operator==` is not transitive: with `a = (0,0,0)`,
`b = (eps,0,0)`, `c = (2*eps,0,0)` we have `a == b` and `b == c` but not
`a == c`, because the comparison uses a fixed absolute tolerance per
component. -/
theorem veq_not_transitive :
    Vector3.veq ⟨0, 0, 0⟩ ⟨eps, 0, 0⟩ ∧
    Vector3.veq ⟨eps, 0, 0⟩ ⟨2 * eps, 0, 0⟩ ∧
    ¬ Vector3.veq ⟨0, 0, 0⟩ ⟨2 * eps, 0, 0⟩ := by
  norm_num [Vector3.veq, eps, abs_le]

end EkumenMath
